import Mathlib

/-!
Verification of `StTstreamsound.py`: a microphone-to-speech-API streaming
program.  We give a shallow embedding of its two algorithmic pieces:

* `MicrophoneStream.generator` (source lines 58-78): drains a thread-safe
  queue of audio chunks into batched byte blocks, terminating on the `None`
  end-of-stream marker.  The queue interaction is modelled as a trace of
  outcomes of the successive `get` calls: each call returns a chunk, the
  `None` marker, or (for the non-blocking `get(block=False)` only) raises
  `queue.Empty`.  The blocking `get` waits through moments where the queue
  is empty, so in the waiting state `empty` events are simply passed over.
  The `while not self.closed` guard is driven by the `closed` flag, which
  `__exit__` sets only immediately before enqueueing the marker; termination
  of the generator is therefore modelled by the marker event.

* `listen_print_loop` (source lines 80-131): iterates over recognition
  responses, maintaining the `num_chars_printed` counter (a Python `int`,
  modelled as `Int`), writing interim transcripts with carriage returns and
  final transcripts with newlines, and breaking out of the loop when the
  regex `\b(終わり|終了)\b` (with `re.I`) matches a final transcript.

* `MicrophoneStream.__exit__` (source lines 44-51): straight-line teardown,
  modelled as a composition of one state-transformer per source line, each
  appending its effect to a log.
-/

/-! ### Data model for `listen_print_loop` -/

/-- One transcript alternative of a recognition result
(`result.alternatives[i]`, of which only `.transcript` is read). -/
structure SpeechAlternative where
  transcript : String
deriving DecidableEq

/-- One recognition result (`response.results[i]`). -/
structure SpeechResult where
  alternatives : List SpeechAlternative
  is_final : Bool
deriving DecidableEq

/-- One streaming response (`response` in the `for` loop). -/
structure StreamingResponse where
  results : List SpeechResult
deriving DecidableEq

/-! ### The exit-keyword regex

The source tests `re.search(r'\b(終わり|終了)\b', transcript, re.I)`.
`\b` is a word boundary; in Python 3 a str `\w` character is one that is
unicode-alphanumeric or the underscore.  The full unicode table cannot be
embedded, so `\w` is modelled code-point-exactly on a declared alphabet
(`modelledChar`): ASCII, the hiragana/katakana block U+3040-U+30FF, the
always-assigned CJK unified ideographs U+4E00-U+9FA5, and the
fullwidth/halfwidth forms U+FF01-U+FF9F.  Within those, the `\w`
characters are: ASCII alphanumerics and `_`; the kana letters and
modifier marks U+3041-U+3096, U+309D-U+309F, U+30A1-U+30FA and
U+30FC-U+30FF (the block's combining voicing marks U+3099-U+309A, the
spacing voicing marks U+309B-U+309C, the double hyphen U+30A0 and the
middle dot U+30FB are punctuation/marks, not alphanumeric); the CJK
ideographs; the fullwidth digits and letters U+FF10-U+FF19,
U+FF21-U+FF3A, U+FF41-U+FF5A (the fullwidth low line U+FF3F is Pc, not
`\w` in Python); and the halfwidth katakana U+FF66-U+FF9F.  `re.I` is a
no-op for this pattern: neither keyword contains a cased character. -/

/-- Python `\w` (unicode alphanumeric or underscore), code-point-exact on
the alphabet delimited by `modelledChar`. -/
def isWordChar (c : Char) : Bool :=
  c.isAlphanum || c == '_' ||
  (0x3041 ≤ c.toNat && c.toNat ≤ 0x3096) ||
  (0x309D ≤ c.toNat && c.toNat ≤ 0x309F) ||
  (0x30A1 ≤ c.toNat && c.toNat ≤ 0x30FA) ||
  (0x30FC ≤ c.toNat && c.toNat ≤ 0x30FF) ||
  (0x4E00 ≤ c.toNat && c.toNat ≤ 0x9FA5) ||
  (0xFF10 ≤ c.toNat && c.toNat ≤ 0xFF19) ||
  (0xFF21 ≤ c.toNat && c.toNat ≤ 0xFF3A) ||
  (0xFF41 ≤ c.toNat && c.toNat ≤ 0xFF5A) ||
  (0xFF66 ≤ c.toNat && c.toNat ≤ 0xFF9F)

/-- The alphabet over which `isWordChar` agrees with Python's `\w`
character by character: ASCII, the kana block, the always-assigned CJK
ideographs, and the fullwidth/halfwidth forms through the halfwidth
katakana. -/
def modelledChar (c : Char) : Bool :=
  c.toNat < 0x80 ||
  (0x3040 ≤ c.toNat && c.toNat ≤ 0x30FF) ||
  (0x4E00 ≤ c.toNat && c.toNat ≤ 0x9FA5) ||
  (0xFF01 ≤ c.toNat && c.toNat ≤ 0xFF9F)

/-- Does `s` start with the literal characters `kw`? -/
def startsWithChars : List Char → List Char → Bool
  | [], _ => true
  | _ :: _, [] => false
  | k :: ks, c :: cs => k == c && startsWithChars ks cs

/-- Word boundary after a keyword occurrence: the text following the
keyword is empty or starts with a non-word character. -/
def boundaryAfter (kw s : List Char) : Bool :=
  match s.drop kw.length with
  | [] => true
  | c :: _ => !isWordChar c

/-- A keyword matches at the current position when the text starts with it
and a word boundary follows. -/
def matchHere (kw s : List Char) : Bool :=
  startsWithChars kw s && boundaryAfter kw s

/-- The two keywords of the pattern `(終わり|終了)`. -/
def exitKeywords : List (List Char) :=
  ["終わり".data, "終了".data]

/-- Scan of `re.search`: try each position; a position is eligible when the
preceding character (tracked by `prevWord`) is not a word character, since
both keywords consist solely of word characters. -/
def kwSearchAux (prevWord : Bool) : List Char → Bool
  | [] => false
  | c :: cs =>
    (!prevWord && (exitKeywords.any fun kw => matchHere kw (c :: cs)))
    || kwSearchAux (isWordChar c) cs

/-- `re.search(r'\b(終わり|終了)\b', transcript, re.I) is not None`. -/
def keywordMatch (transcript : String) : Bool :=
  kwSearchAux false transcript.data

/-! ### `listen_print_loop` -/

/-- `' ' * (num_chars_printed - len(transcript))`: Python's string
repetition yields the empty string for a non-positive count, which is
exactly `Int.toNat`. -/
def overwrite_chars (num_chars_printed : Int) (transcriptLen : Nat) : String :=
  String.mk (List.replicate (num_chars_printed - (transcriptLen : Int)).toNat ' ')

/-- Outcome of handling one `response` in the loop body: the strings
written to stdout (in order), the value of `num_chars_printed` afterwards,
and whether the body executed `break`. -/
structure StepOut where
  writes : List String
  num_chars_printed : Int
  brk : Bool
deriving DecidableEq

/-- One iteration of the `for response in responses` body
(source lines 97-131). -/
def processResponse (num_chars_printed : Int) (response : StreamingResponse) :
    StepOut :=
  match response.results with
  | [] => ⟨[], num_chars_printed, false⟩
  | result :: _ =>
    match result.alternatives with
    | [] => ⟨[], num_chars_printed, false⟩
    | alt :: _ =>
      let transcript := alt.transcript
      let ow := overwrite_chars num_chars_printed transcript.length
      if result.is_final then
        if keywordMatch transcript then
          ⟨[transcript ++ ow ++ "\n", "Exiting..\n"], num_chars_printed, true⟩
        else
          ⟨[transcript ++ ow ++ "\n"], 0, false⟩
      else
        ⟨[transcript ++ ow ++ "\r"], (transcript.length : Int), false⟩

/-- The loop of `listen_print_loop` from a given counter value: returns the
writes emitted (in order) and the final value of `num_chars_printed`. -/
def listen_print_loop_from (num_chars_printed : Int) :
    List StreamingResponse → List String × Int
  | [] => ([], num_chars_printed)
  | r :: rs =>
    let s := processResponse num_chars_printed r
    if s.brk then (s.writes, s.num_chars_printed)
    else
      let rest := listen_print_loop_from s.num_chars_printed rs
      (s.writes ++ rest.1, rest.2)

/-- `listen_print_loop(responses)` (source line 95: the counter starts
at 0). -/
def listen_print_loop (responses : List StreamingResponse) :
    List String × Int :=
  listen_print_loop_from 0 responses

/-- An interim response carrying a single transcript. -/
def mkInterim (t : String) : StreamingResponse :=
  ⟨[⟨[⟨t⟩], false⟩]⟩

/-- A final response carrying a single transcript. -/
def mkFinal (t : String) : StreamingResponse :=
  ⟨[⟨[⟨t⟩], true⟩]⟩

/-- The transcript of the most recent interim write, threaded along the
loop for stating the `num_chars_printed` invariant: a response updates it
exactly when the loop body performs an interim write. -/
def lastInterimUpd (last : Option String) (response : StreamingResponse) :
    Option String :=
  match response.results with
  | [] => last
  | result :: _ =>
    match result.alternatives with
    | [] => last
    | alt :: _ => if result.is_final then last else some alt.transcript

/-- The pair (value of `num_chars_printed`, most recent interim transcript)
at the start of each loop iteration the loop actually enters. -/
def loopStates (num_chars_printed : Int) (last : Option String) :
    List StreamingResponse → List (Int × Option String)
  | [] => []
  | r :: rs =>
    (num_chars_printed, last) ::
      (let s := processResponse num_chars_printed r
       if s.brk then []
       else loopStates s.num_chars_printed (lastInterimUpd last r) rs)

/-! ### `MicrophoneStream.generator`

The queue interaction is modelled as a trace: the outcome of each
successive `self._buff.get(...)` call, in call order.  A chunk is a byte
block, modelled as `List Nat`. -/

/-- Outcome of one queue read: a data chunk, the `None` end-of-stream
marker, or the `queue.Empty` exception (raised only by the non-blocking
`get(block=False)`; the blocking `get` waits through empty moments). -/
inductive ReadEvent where
  | chunk (b : List Nat)
  | marker
  | empty
deriving DecidableEq

/-- Control position of the generator: about to perform the blocking
`get()` of the outer loop, or inside the inner non-blocking drain loop with
the accumulated `data` list. -/
inductive GenMode where
  | waiting
  | draining (data : List (List Nat))
deriving DecidableEq

namespace MicrophoneStream

/-- The generator body (source lines 58-78), with the consumed trace made
explicit.  Returns the blocks yielded (in order) and the suffix of the
trace never read.  In `waiting` mode: the blocking `get` skips `empty`
moments, terminates the generator on the marker, and otherwise starts a
batch `data = [chunk]`.  In `draining data` mode: `queue.Empty` ends the
inner loop and yields `b''.join(data)`, the marker terminates the
generator immediately (without yielding the accumulated batch), and a
chunk is appended to the batch.  An exhausted trace means no further queue
activity was recorded: the generator blocks (or its caller stops), so no
further blocks are observed. -/
def genAux : GenMode → List ReadEvent → List (List Nat) × List ReadEvent
  | _, [] => ([], [])
  | GenMode.waiting, ReadEvent.empty :: es => genAux GenMode.waiting es
  | GenMode.waiting, ReadEvent.marker :: es => ([], es)
  | GenMode.waiting, ReadEvent.chunk b :: es => genAux (GenMode.draining [b]) es
  | GenMode.draining data, ReadEvent.empty :: es =>
    let rest := genAux GenMode.waiting es
    (data.flatten :: rest.1, rest.2)
  | GenMode.draining _, ReadEvent.marker :: es => ([], es)
  | GenMode.draining data, ReadEvent.chunk b :: es =>
    genAux (GenMode.draining (data ++ [b])) es

/-- The byte blocks yielded by `MicrophoneStream.generator` over a given
queue trace. -/
def generator (tr : List ReadEvent) : List (List Nat) :=
  (genAux GenMode.waiting tr).1

end MicrophoneStream

/-- The items actually carried by the queue along a trace, in order:
`some b` for a chunk, `none` for the end-of-stream marker; `queue.Empty`
outcomes are not items.  A run in which chunks `cs` are enqueued followed
by the end marker is a trace `tr` with `queueItems tr = cs.map some ++
[none]`. -/
def queueItems (tr : List ReadEvent) : List (Option (List Nat)) :=
  tr.filterMap fun e =>
    match e with
    | ReadEvent.chunk b => some (some b)
    | ReadEvent.marker => some none
    | ReadEvent.empty => none

/-- The chunks dequeued along a trace, in dequeue order. -/
def dequeuedChunks (tr : List ReadEvent) : List (List Nat) :=
  tr.filterMap fun e =>
    match e with
    | ReadEvent.chunk b => some b
    | _ => none

/-! ### `MicrophoneStream.__exit__`

Straight-line teardown (source lines 44-51), one state transformer per
line, each appending its effect to a log. -/

/-- The five externally visible effects of `__exit__`, in the order the
source performs them. -/
inductive ExitEffect where
  | stop_stream
  | close_stream
  | set_closed
  | put_marker
  | terminate_interface
deriving DecidableEq

/-- Session state touched by `__exit__`. -/
structure ExitState where
  log : List ExitEffect
  stream_active : Bool
  stream_open : Bool
  closed : Bool
  buff : List (Option (List Nat))
  interface_alive : Bool
deriving DecidableEq

/-- `self._audio_stream.stop_stream()` (line 45). -/
def stop_stream_op (s : ExitState) : ExitState :=
  { s with stream_active := false, log := s.log ++ [ExitEffect.stop_stream] }

/-- `self._audio_stream.close()` (line 46). -/
def close_stream_op (s : ExitState) : ExitState :=
  { s with stream_open := false, log := s.log ++ [ExitEffect.close_stream] }

/-- `self.closed = True` (line 47). -/
def set_closed_op (s : ExitState) : ExitState :=
  { s with closed := true, log := s.log ++ [ExitEffect.set_closed] }

/-- `self._buff.put(None)` (line 50). -/
def put_marker_op (s : ExitState) : ExitState :=
  { s with buff := s.buff ++ [none], log := s.log ++ [ExitEffect.put_marker] }

/-- `self._audio_interface.terminate()` (line 51). -/
def terminate_interface_op (s : ExitState) : ExitState :=
  { s with interface_alive := false,
           log := s.log ++ [ExitEffect.terminate_interface] }

/-- `MicrophoneStream.__exit__` (lines 44-51): the five operations in
source order. -/
def MicrophoneStream.exitStep (s : ExitState) : ExitState :=
  terminate_interface_op (put_marker_op (set_closed_op
    (close_stream_op (stop_stream_op s))))

/-! ## Claims about `listen_print_loop` -/

/-- Claim C3 (confirmed): for every interim result with transcript `t`, the
loop body writes `t` followed by exactly `max 0 (num_chars_printed - len t)`
spaces and a carriage return (no newline), and sets `num_chars_printed` to
`len t`; in particular interim "hello" followed by interim "hi" makes the
second write carry 3 padding spaces. -/
theorem C3_interim_write_pads_and_updates :
    (∀ (n : Int) (t : String),
        processResponse n (mkInterim t) =
          ⟨[t ++ overwrite_chars n t.length ++ "\r"], (t.length : Int), false⟩)
    ∧ (∀ (n : Int) (len : Nat),
        overwrite_chars n len =
          String.mk (List.replicate (max (n - (len : Int)) 0).toNat ' '))
    ∧ (listen_print_loop [mkInterim "hello", mkInterim "hi"]).1 =
        ["hello\r", "hi   \r"] := by
  refine ⟨fun n t => rfl, ?_, by decide⟩
  intro n len
  have h : (n - (len : Int)).toNat = (max (n - (len : Int)) 0).toNat := by omega
  simp only [overwrite_chars, h]

/-- Claim C5 (confirmed): a response group with no results, or whose first
result has no alternatives, produces no output, leaves `num_chars_printed`
unchanged, and the loop proceeds to the next response group. -/
theorem C5_malformed_response_skipped :
    (∀ n : Int, processResponse n ⟨[]⟩ = ⟨[], n, false⟩)
    ∧ (∀ (n : Int) (f : Bool) (more : List SpeechResult),
        processResponse n ⟨⟨[], f⟩ :: more⟩ = ⟨[], n, false⟩)
    ∧ (∀ (n : Int) (rs : List StreamingResponse),
        listen_print_loop_from n ((⟨[]⟩ : StreamingResponse) :: rs) =
          listen_print_loop_from n rs)
    ∧ (∀ (n : Int) (f : Bool) (more : List SpeechResult)
        (rs : List StreamingResponse),
        listen_print_loop_from n (⟨⟨[], f⟩ :: more⟩ :: rs) =
          listen_print_loop_from n rs) := by
  refine ⟨fun n => rfl, fun n f more => rfl, ?_, ?_⟩
  · intro n rs
    simp [listen_print_loop_from, processResponse]
  · intro n f more rs
    simp [listen_print_loop_from, processResponse]

/-- Claim C2, counterexample: after an interim "ABCDE" (counter 5), a final
"終わり" prints the transcript (with padding) and "Exiting.." and breaks,
but the `break` precedes the `num_chars_printed = 0` assignment, so the
counter is NOT reset to 0 as the claim states — it stays 5. -/
theorem C2_counterexample :
    listen_print_loop [mkInterim "ABCDE", mkFinal "終わり"] =
      (["ABCDE\r", "終わり  \n", "Exiting..\n"], 5)
    ∧ (listen_print_loop [mkInterim "ABCDE", mkFinal "終わり"]).2 ≠ 0 := by
  decide

/-- Claim C2 as amended (proved): a final result with transcript "終わり"
prints the transcript followed by the overwrite padding and a newline, then
prints "Exiting..", and terminates the loop processing no further
responses; `num_chars_printed` is left unchanged (the reset to 0 is
unreachable on the keyword path because `break` precedes it). -/
theorem C2_final_keyword_prints_and_breaks :
    ∀ (n : Int) (rest : List StreamingResponse),
      listen_print_loop_from n (mkFinal "終わり" :: rest) =
        (["終わり" ++ overwrite_chars n 3 ++ "\n", "Exiting..\n"], n) := by
  intro n rest
  simp [listen_print_loop_from, processResponse, mkFinal,
        show keywordMatch "終わり" = true from by decide,
        show ("終わり" : String).length = 3 from rfl]

/-- Claim C7 (confirmed): a final result whose transcript, drawn from the
modelled alphabet, does not match the exit pattern prints the transcript
(with padding) and a newline, resets `num_chars_printed` to 0, and the
loop continues with the remaining responses.  The alphabet hypothesis
delimits where the embedded `\w` classifier is character-exact to
Python's, so `keywordMatch t = false` there is exactly "`re.search` finds
no keyword in `t`". -/
theorem C7_final_without_keyword_continues :
    ∀ (n : Int) (t : String) (rest : List StreamingResponse),
      t.data.all modelledChar = true →
      keywordMatch t = false →
      listen_print_loop_from n (mkFinal t :: rest) =
        ((t ++ overwrite_chars n t.length ++ "\n") ::
            (listen_print_loop_from 0 rest).1,
          (listen_print_loop_from 0 rest).2) := by
  intro n t rest _ h
  simp [listen_print_loop_from, processResponse, mkFinal, h]

/-- Witness for C7 at transcript "こんにちは" (no keyword), counter 2. -/
theorem C7_witness :
    listen_print_loop_from 2 [mkFinal "こんにちは"] =
      (("こんにちは" ++ overwrite_chars 2 ("こんにちは" : String).length ++ "\n") ::
          (listen_print_loop_from 0 []).1,
        (listen_print_loop_from 0 []).2) :=
  C7_final_without_keyword_continues 2 "こんにちは" [] (by decide) (by decide)

/-- Claim C10 (confirmed): the exit pattern also accepts "終了": a final
"終了" prints the transcript and "Exiting.." and terminates the loop.  Both
keywords match only as whole words (a neighbouring word character defeats
the `\b` boundaries); `re.I` is inert since neither keyword has cased
characters. -/
theorem C10_second_keyword_exits :
    (∀ (n : Int) (rest : List StreamingResponse),
      listen_print_loop_from n (mkFinal "終了" :: rest) =
        (["終了" ++ overwrite_chars n 2 ++ "\n", "Exiting..\n"], n))
    ∧ keywordMatch "終わり" = true
    ∧ keywordMatch "終了" = true
    ∧ keywordMatch "終了時" = false
    ∧ keywordMatch "A終了" = false := by
  refine ⟨?_, by decide, by decide, by decide, by decide⟩
  intro n rest
  simp [listen_print_loop_from, processResponse, mkFinal,
        show keywordMatch "終了" = true from by decide,
        show ("終了" : String).length = 2 from rfl]

/-- Helper for C8: the invariant is preserved from any state satisfying
it. -/
theorem loopStates_invariant (rs : List StreamingResponse) :
    ∀ (n : Int) (last : Option String),
      0 ≤ n → (n = 0 ∨ ∃ t : String, last = some t ∧ n = (t.length : Int)) →
      ∀ p ∈ loopStates n last rs,
        0 ≤ p.1 ∧ (p.1 = 0 ∨ ∃ t : String, p.2 = some t ∧ p.1 = (t.length : Int)) := by
  induction rs with
  | nil =>
    intro n last _ _ p hp
    simp [loopStates] at hp
  | cons r rs ih =>
    intro n last h0 h1 p hp
    obtain ⟨results⟩ := r
    rcases results with _ | ⟨⟨alts, fin⟩, more⟩
    · simp [loopStates, processResponse, lastInterimUpd] at hp
      rcases hp with rfl | hp
      · exact ⟨h0, h1⟩
      · exact ih n last h0 h1 p hp
    · rcases alts with _ | ⟨alt, alts⟩
      · simp [loopStates, processResponse, lastInterimUpd] at hp
        rcases hp with rfl | hp
        · exact ⟨h0, h1⟩
        · exact ih n last h0 h1 p hp
      · cases fin with
        | false =>
          simp [loopStates, processResponse, lastInterimUpd] at hp
          rcases hp with rfl | hp
          · exact ⟨h0, h1⟩
          · exact ih _ _ (Int.natCast_nonneg _)
              (Or.inr ⟨alt.transcript, rfl, rfl⟩) p hp
        | true =>
          cases hk : keywordMatch alt.transcript with
          | true =>
            simp [loopStates, processResponse, lastInterimUpd, hk] at hp
            subst hp
            exact ⟨h0, h1⟩
          | false =>
            simp [loopStates, processResponse, lastInterimUpd, hk] at hp
            rcases hp with rfl | hp
            · exact ⟨h0, h1⟩
            · exact ih 0 last le_rfl (Or.inl rfl) p hp

/-- Claim C8 (confirmed): at the start of every loop iteration,
`num_chars_printed` is non-negative and equals 0 or the length of the most
recently written interim transcript; a skipped response group (no results,
or first result with no alternatives) leaves the counter unchanged and
writes nothing. -/
theorem C8_counter_invariant :
    (∀ (rs : List StreamingResponse) (p : Int × Option String),
        p ∈ loopStates 0 none rs →
        0 ≤ p.1 ∧ (p.1 = 0 ∨ ∃ t : String, p.2 = some t ∧ p.1 = (t.length : Int)))
    ∧ (∀ (n : Int) (r : StreamingResponse),
        (r.results = [] ∨
          ∃ res more, r.results = res :: more ∧ res.alternatives = []) →
        processResponse n r = ⟨[], n, false⟩) := by
  constructor
  · intro rs p hp
    exact loopStates_invariant rs 0 none le_rfl (Or.inl rfl) p hp
  · rintro n ⟨results⟩ (h | ⟨⟨alts, fin⟩, more, hr, ha⟩)
    · simp only at h
      subst h
      rfl
    · simp only at hr ha
      subst hr
      subst ha
      rfl

/-- Witness for C8 at the state trace of interim "ab" then final "x", and
at the empty response group. -/
theorem C8_witness :
    (0 ≤ ((2 : Int), (some "ab" : Option String)).1 ∧
      (((2 : Int), (some "ab" : Option String)).1 = 0 ∨
        ∃ t : String, ((2 : Int), (some "ab" : Option String)).2 = some t ∧
          ((2 : Int), (some "ab" : Option String)).1 = (t.length : Int)))
    ∧ processResponse 5 ⟨[]⟩ = ⟨[], 5, false⟩ :=
  ⟨C8_counter_invariant.1 [mkInterim "ab", mkFinal "x"] (2, some "ab")
      (by decide),
    C8_counter_invariant.2 5 ⟨[]⟩ (Or.inl rfl)⟩

/-! ## Claims about `MicrophoneStream.generator` -/

/-- Helper for C1: over any trace carrying chunks `cs` followed by the end
marker, the concatenation of the yielded blocks equals the concatenation
of the first `k` chunks for some `k` — all full batches are emitted in
order, and a batch being accumulated when the marker arrives mid-drain is
discarded. -/
theorem genAux_flatten_spec (es : List ReadEvent) :
    ∀ cs : List (List Nat), queueItems es = cs.map some ++ [none] →
      (∃ k ≤ cs.length,
        ((MicrophoneStream.genAux GenMode.waiting es).1).flatten =
          (cs.take k).flatten)
      ∧ ∀ d : List (List Nat),
          ((MicrophoneStream.genAux (GenMode.draining d) es).1).flatten = [] ∨
          ∃ k ≤ cs.length,
            ((MicrophoneStream.genAux (GenMode.draining d) es).1).flatten =
              d.flatten ++ (cs.take k).flatten := by
  induction es with
  | nil =>
    intro cs h
    simp [queueItems] at h
  | cons e es ih =>
    intro cs h
    cases e with
    | empty =>
      have h' : queueItems es = cs.map some ++ [none] := by
        simpa [queueItems] using h
      obtain ⟨hw, hd⟩ := ih cs h'
      constructor
      · simpa [MicrophoneStream.genAux] using hw
      · intro d
        rcases hw with ⟨k, hk, hflat⟩
        exact Or.inr ⟨k, hk, by simp [MicrophoneStream.genAux, hflat]⟩
    | marker =>
      have hcs : cs = [] := by
        cases cs with
        | nil => rfl
        | cons c cs' => simp [queueItems] at h
      subst hcs
      constructor
      · exact ⟨0, le_rfl, by simp [MicrophoneStream.genAux]⟩
      · intro d
        exact Or.inl (by simp [MicrophoneStream.genAux])
    | chunk b =>
      cases cs with
      | nil => simp [queueItems] at h
      | cons c cs' =>
        have hbc : b = c ∧ queueItems es = cs'.map some ++ [none] := by
          simpa [queueItems] using h
        obtain ⟨rfl, h'⟩ := hbc
        obtain ⟨hw, hd⟩ := ih cs' h'
        constructor
        · rcases hd [b] with hnil | ⟨k, hk, hflat⟩
          · exact ⟨0, Nat.zero_le _, by simpa [MicrophoneStream.genAux] using hnil⟩
          · refine ⟨k + 1, by simpa using Nat.succ_le_succ hk, ?_⟩
            simp [MicrophoneStream.genAux, hflat, List.take_succ_cons]
        · intro d
          rcases hd (d ++ [b]) with hnil | ⟨k, hk, hflat⟩
          · exact Or.inl (by simpa [MicrophoneStream.genAux] using hnil)
          · refine Or.inr ⟨k + 1, by simpa using Nat.succ_le_succ hk, ?_⟩
            simp [MicrophoneStream.genAux, hflat, List.take_succ_cons]

/-- Claim C1, counterexample: enqueue the single chunk `[1]` and then the
end marker, with both already buffered when the generator drains (trace:
blocking get returns the chunk, the non-blocking get returns the marker).
The generator returns without yielding the accumulated batch, so the
concatenation of the yields is empty, not `[1]`: the claim's "no chunk is
lost ... including chunks drained in the same pass in which the end marker
is encountered" fails. -/
theorem C1_counterexample :
    queueItems [ReadEvent.chunk [1], ReadEvent.marker] =
      ([[1]] : List (List Nat)).map some ++ [none]
    ∧ (MicrophoneStream.generator
        [ReadEvent.chunk [1], ReadEvent.marker]).flatten ≠
        ([[1]] : List (List Nat)).flatten := by
  decide

/-- Claim C1 as amended (proved): for every sequence of chunks `cs`
enqueued and then the end marker, the concatenation of the yields equals
the concatenation of the first `k` enqueued chunks in enqueue order, for
some `k ≤ |cs|` — no reordering and no duplication; chunks can be lost,
and only by being drained in the same pass in which the non-blocking read
encounters the end marker (that still-accumulating batch is discarded). -/
theorem C1_yields_concat_initial_chunks (cs : List (List Nat))
    (tr : List ReadEvent) (h : queueItems tr = cs.map some ++ [none]) :
    ∃ k ≤ cs.length,
      (MicrophoneStream.generator tr).flatten = (cs.take k).flatten :=
  (genAux_flatten_spec tr cs h).1

/-- Witness for C1 at chunks `[[1], [2]]` drained in one batch closed by a
`queue.Empty` before the marker. -/
theorem C1_witness :
    ∃ k ≤ ([[1], [2]] : List (List Nat)).length,
      (MicrophoneStream.generator
        [ReadEvent.chunk [1], ReadEvent.chunk [2], ReadEvent.empty,
          ReadEvent.marker]).flatten =
        (([[1], [2]] : List (List Nat)).take k).flatten :=
  C1_yields_concat_initial_chunks [[1], [2]]
    [ReadEvent.chunk [1], ReadEvent.chunk [2], ReadEvent.empty,
      ReadEvent.marker] (by decide)

/-- Helper for C4: from any control position, the first marker read
terminates the run — the yields equal those of the run truncated at the
marker, and the whole trace after the marker is left unread. -/
theorem genAux_stops_at_marker (tr1 : List ReadEvent)
    (hnm : ReadEvent.marker ∉ tr1) :
    ∀ (mode : GenMode) (tr2 : List ReadEvent),
      MicrophoneStream.genAux mode (tr1 ++ ReadEvent.marker :: tr2) =
        ((MicrophoneStream.genAux mode (tr1 ++ [ReadEvent.marker])).1, tr2) := by
  induction tr1 with
  | nil =>
    intro mode tr2
    cases mode with
    | waiting => simp [MicrophoneStream.genAux]
    | draining d => simp [MicrophoneStream.genAux]
  | cons e tr1 ih =>
    have he : e ≠ ReadEvent.marker := fun h => hnm (h ▸ List.mem_cons_self _ _)
    have hnm' : ReadEvent.marker ∉ tr1 := fun h => hnm (List.mem_cons_of_mem _ h)
    intro mode tr2
    cases e with
    | marker => exact absurd rfl he
    | empty =>
      cases mode with
      | waiting =>
        simpa [MicrophoneStream.genAux] using ih hnm' GenMode.waiting tr2
      | draining d =>
        have hr := ih hnm' GenMode.waiting tr2
        simp [MicrophoneStream.genAux, hr]
    | chunk b =>
      cases mode with
      | waiting =>
        simpa [MicrophoneStream.genAux] using ih hnm' (GenMode.draining [b]) tr2
      | draining d =>
        simpa [MicrophoneStream.genAux] using ih hnm' (GenMode.draining (d ++ [b])) tr2

/-- Claim C4 (confirmed): once the end marker is dequeued — by the blocking
read or by a non-blocking read during batch draining — the generator
yields nothing further and performs no further queue reads: its yields
equal those of the run truncated at the marker, and the entire trace
following the marker is returned unread. -/
theorem C4_marker_terminates_generator (tr1 tr2 : List ReadEvent)
    (h : ReadEvent.marker ∉ tr1) :
    MicrophoneStream.genAux GenMode.waiting (tr1 ++ ReadEvent.marker :: tr2) =
      (MicrophoneStream.generator (tr1 ++ [ReadEvent.marker]), tr2) :=
  genAux_stops_at_marker tr1 h GenMode.waiting tr2

/-- Witness for C4: one chunk, a `queue.Empty`, the marker, then a stray
chunk that is never read. -/
theorem C4_witness :
    MicrophoneStream.genAux GenMode.waiting
      ([ReadEvent.chunk [1], ReadEvent.empty] ++ ReadEvent.marker ::
        [ReadEvent.chunk [9]]) =
      (MicrophoneStream.generator
        ([ReadEvent.chunk [1], ReadEvent.empty] ++ [ReadEvent.marker]),
        [ReadEvent.chunk [9]]) :=
  C4_marker_terminates_generator [ReadEvent.chunk [1], ReadEvent.empty]
    [ReadEvent.chunk [9]] (by decide)

/-- Helper for C9: every yield is the flattening of a nonempty selection of
the dequeued chunks taken in dequeue order (for the draining mode, of the
accumulated batch followed by the chunks still to be dequeued). -/
theorem genAux_yield_batches (es : List ReadEvent) :
    ∀ y : List Nat,
      (y ∈ (MicrophoneStream.genAux GenMode.waiting es).1 →
        ∃ ds : List (List Nat), ds ≠ [] ∧ y = ds.flatten ∧
          ds.Sublist (dequeuedChunks es))
      ∧ ∀ d : List (List Nat), d ≠ [] →
          y ∈ (MicrophoneStream.genAux (GenMode.draining d) es).1 →
          ∃ ds : List (List Nat), ds ≠ [] ∧ y = ds.flatten ∧
            ds.Sublist (d ++ dequeuedChunks es) := by
  induction es with
  | nil =>
    intro y
    constructor
    · intro hy
      simp [MicrophoneStream.genAux] at hy
    · intro d _ hy
      simp [MicrophoneStream.genAux] at hy
  | cons e es ih =>
    intro y
    cases e with
    | empty =>
      constructor
      · intro hy
        have hmem : y ∈ (MicrophoneStream.genAux GenMode.waiting es).1 := by
          simpa [MicrophoneStream.genAux] using hy
        obtain ⟨ds, hne, hflat, hsub⟩ := (ih y).1 hmem
        exact ⟨ds, hne, hflat, by simpa [dequeuedChunks] using hsub⟩
      · intro d hd hy
        simp [MicrophoneStream.genAux] at hy
        rcases hy with rfl | hy
        · refine ⟨d, hd, rfl, ?_⟩
          simp [dequeuedChunks]
        · obtain ⟨ds, hne, hflat, hsub⟩ := (ih y).1 hy
          refine ⟨ds, hne, hflat, ?_⟩
          simpa [dequeuedChunks] using
            hsub.trans (List.sublist_append_right d (dequeuedChunks es))
    | marker =>
      constructor
      · intro hy
        simp [MicrophoneStream.genAux] at hy
      · intro d _ hy
        simp [MicrophoneStream.genAux] at hy
    | chunk b =>
      constructor
      · intro hy
        have hmem : y ∈ (MicrophoneStream.genAux (GenMode.draining [b]) es).1 := by
          simpa [MicrophoneStream.genAux] using hy
        obtain ⟨ds, hne, hflat, hsub⟩ := (ih y).2 [b] (by simp) hmem
        exact ⟨ds, hne, hflat, by simpa [dequeuedChunks] using hsub⟩
      · intro d hd hy
        have hmem :
            y ∈ (MicrophoneStream.genAux (GenMode.draining (d ++ [b])) es).1 := by
          simpa [MicrophoneStream.genAux] using hy
        obtain ⟨ds, hne, hflat, hsub⟩ := (ih y).2 (d ++ [b]) (by simp) hmem
        refine ⟨ds, hne, hflat, ?_⟩
        simpa [dequeuedChunks, List.append_assoc] using hsub

/-- Claim C9 (confirmed): every block yielded by the generator is the
concatenation of at least one dequeued non-marker chunk, and within each
block the constituent chunks appear in dequeue order (they form an
order-preserving selection of the dequeued chunks). -/
theorem C9_yield_is_nonempty_ordered_batch (tr : List ReadEvent)
    (y : List Nat) (hy : y ∈ MicrophoneStream.generator tr) :
    ∃ ds : List (List Nat), ds ≠ [] ∧ y = ds.flatten ∧
      ds.Sublist (dequeuedChunks tr) :=
  (genAux_yield_batches tr y).1 hy

/-- Witness for C9 at the block `[1, 2]` yielded from chunks `[1]`, `[2]`. -/
theorem C9_witness :
    ∃ ds : List (List Nat), ds ≠ [] ∧ ([1, 2] : List Nat) = ds.flatten ∧
      ds.Sublist (dequeuedChunks
        [ReadEvent.chunk [1], ReadEvent.chunk [2], ReadEvent.empty,
          ReadEvent.marker]) :=
  C9_yield_is_nonempty_ordered_batch
    [ReadEvent.chunk [1], ReadEvent.chunk [2], ReadEvent.empty,
      ReadEvent.marker] [1, 2] (by decide)

/-! ## Claim about `MicrophoneStream.__exit__` -/

/-- Claim C6 (confirmed): teardown performs, in this strict order: stop the
device stream, close it, set the `closed` flag, enqueue the end-of-stream
marker, release the audio interface — in particular the marker lands on
the buffer strictly after the stream is stopped. -/
theorem C6_exit_teardown_order :
    ∀ s : ExitState,
      (MicrophoneStream.exitStep s).log =
        s.log ++ [ExitEffect.stop_stream, ExitEffect.close_stream,
          ExitEffect.set_closed, ExitEffect.put_marker,
          ExitEffect.terminate_interface]
      ∧ (MicrophoneStream.exitStep s).buff = s.buff ++ [none]
      ∧ (MicrophoneStream.exitStep s).closed = true
      ∧ (MicrophoneStream.exitStep s).stream_active = false
      ∧ (MicrophoneStream.exitStep s).stream_open = false
      ∧ (MicrophoneStream.exitStep s).interface_alive = false := by
  intro s
  refine ⟨?_, rfl, rfl, rfl, rfl, rfl⟩
  simp [MicrophoneStream.exitStep, stop_stream_op, close_stream_op,
    set_closed_op, put_marker_op, terminate_interface_op]
